import Mathlib

/-!
Verification of the TransportAgreement dispatch engine
(`dev/send_emails_smtp.py`, with shared constants from `dev/config.py`).

The Python module is embedded shallowly:

* module-level constants become Lean constants (floats become exact `ℚ`);
* `BurstPacer` becomes a `PacerState` record with pure transition functions
  (`before_send`, `on_send_result`, `on_retry_421`, `_do_pause`);
* `send_with_retries` becomes a pure function over an attempt oracle
  `att : Nat → Bool × Option Nat` (the result of the i-th call to
  `send_one_email`), a jitter oracle `jit : Nat → ℚ` (the value of
  `random.uniform(0.8, 1.2)` at the i-th retry), and a cancellation
  threshold; it returns a `RetryTrace` recording, besides the returned
  triple, the number of attempts performed and every backoff wait
  (`retry_delay` and `retry_delay * jitter`) that was requested;
* the cancel event (`threading.Event`) is a monotone flag: polls are numbered
  by a tick counter threaded through the run, and `stopAt = some k` means the
  flag is set from poll `k` on (`none`: never set);
* the filesystem reads used by task construction (`os.listdir`, `isdir`)
  become an `FSState` record of oracles, and `collect_supplier_files`,
  the task-list construction in `main` (lines 437-467) and
  `count_pending_tasks` are translated over it.  Python string tests are
  rendered on `List Char` (code points, as Python compares them); `str.split`
  and `sorted` are re-implemented structurally so that the kernel can
  evaluate them.  `str.isdigit` is modelled for ASCII digits, the only kind
  the 5-digit supplier codes use;
* the dispatch loop of `main` (lines 484-590) becomes `mainLoopAux`, driven
  by an `Env` of oracles (per-task attempt results, jitters, results of
  `_create_smtp_connection`, cancellation threshold).  Besides the `result`
  dict it returns one `TaskOutcome` per built task, and a ghost `aborted`
  flag records the early `break` after 3 consecutive connection failures
  (line 518-520).  File moves (lines 540-563) are summarised by
  `fileLocAfter`, giving the final location of a task's files from its
  outcome and the success of the `os.makedirs`/`shutil.move` calls.
-/

/-! ## Constants (send_emails_smtp.py lines 40-53; the Python floats
10.0, 3.0, 60.0, 0.5, 2.0, 30.0, 60.0 are exact rationals) -/

def BURST_SIZE : Nat := 5
def BURST_PAUSE_INITIAL : ℚ := 10
def BURST_PAUSE_MIN : ℚ := 3
def BURST_PAUSE_MAX : ℚ := 60
def BURST_PAUSE_DECREASE : ℚ := 1/2
def BURST_PAUSE_MULTIPLY : ℚ := 2

def MAX_RETRIES : Nat := 5
def RETRY_BASE_DELAY : ℚ := 30
def RETRY_MAX_DELAY : ℚ := 60

/-! ## BurstPacer (lines 272-317) -/

/-- State of `BurstPacer`: `pause`, `burst_count`, `burst_had_421`
(`__init__`, lines 279-282). -/
structure PacerState where
  pause : ℚ
  burst_count : Nat
  burst_had_421 : Bool
deriving DecidableEq

/-- Constructor `BurstPacer()` (lines 280-282). -/
def pacerInit : PacerState :=
  { pause := BURST_PAUSE_INITIAL, burst_count := 0, burst_had_421 := false }

/-- The pause adjustment performed at the top of `_do_pause` (lines 302-309):
multiply (capped) when the burst saw a 421, otherwise decrease linearly
(floored). -/
def adjust_pause (had421 : Bool) (pause : ℚ) : ℚ :=
  if had421 then min BURST_PAUSE_MAX (pause * BURST_PAUSE_MULTIPLY)
  else max BURST_PAUSE_MIN (pause - BURST_PAUSE_DECREASE)

/-- Method `BurstPacer._do_pause` (lines 299-317): adjust `self.pause`, sleep for the
(adjusted) `self.pause`, reset `burst_count` and `burst_had_421`.  Returns the
new state and the duration passed to `_interruptible_sleep` at line 313. -/
def _do_pause (p : PacerState) : PacerState × ℚ :=
  let newPause := adjust_pause p.burst_had_421 p.pause
  ({ pause := newPause, burst_count := 0, burst_had_421 := false }, newPause)

/-- Method `BurstPacer.before_send` (lines 284-287).  Returns the new state and
`some d` when a pause of duration `d` was performed. -/
def before_send (p : PacerState) : PacerState × Option ℚ :=
  if BURST_SIZE ≤ p.burst_count then
    let q := _do_pause p
    (q.1, some q.2)
  else (p, none)

/-- Method `BurstPacer.on_send_result` (lines 289-293). -/
def on_send_result (p : PacerState) (success : Bool) (error_code : Option Nat) :
    PacerState :=
  let p1 : PacerState := { p with burst_count := p.burst_count + 1 }
  if !success && error_code == some 421 then { p1 with burst_had_421 := true }
  else p1

/-- Method `BurstPacer.on_retry_421` (lines 295-297). -/
def on_retry_421 (p : PacerState) : PacerState :=
  { p with burst_had_421 := true }

/-! ## Cancellation event -/

/-- Poll of the cancel event at tick `t`: the event is set from tick `stopAt`
onwards (monotone, as a `threading.Event` that is only ever set). -/
def stopSet (stopAt : Option Nat) (t : Nat) : Bool :=
  match stopAt with
  | none => false
  | some k => decide (k ≤ t)

/-! ## send_with_retries (lines 331-372) -/

/-- One backoff wait requested by `send_with_retries`: retry number `idx`
(the loop variable `attempt`, 1-based), `nominal = retry_delay` and
`wait = retry_delay * jitter` (lines 355-356). -/
structure WaitRec where
  idx : Nat
  nominal : ℚ
  wait : ℚ
deriving DecidableEq

/-- Observable result of one `send_with_retries` call: the returned triple
(`success`, `last_error_code`, whether the returned server handle is a live
reusable connection), the tick counter after the call, the number of
`send_one_email` calls performed, and the backoff waits requested. -/
structure RetryTrace where
  success : Bool
  lastCode : Option Nat
  pacer : PacerState
  serverLive : Bool
  tick : Nat
  attemptsMade : Nat
  waits : List WaitRec
deriving DecidableEq

/-- The retry loop of `send_with_retries` (lines 350-372):
`for attempt in range(1, max_retries)` with the two cancellation checks,
the jittered exponential backoff, and the 421 report to the pacer.
Arguments after the oracles: remaining iterations, `attempt`, tick,
`retry_delay`, `last_code`, pacer, attempts performed so far, waits so far.
A failed attempt leaves the server handle dead (`send_one_email` returns
`None` for it), so every exit of the loop reports `serverLive = false`. -/
def retryLoop (att : Nat → Bool × Option Nat) (jit : Nat → ℚ)
    (stopAt : Option Nat) :
    Nat → Nat → Nat → ℚ → Option Nat → PacerState → Nat → List WaitRec →
    RetryTrace
  | 0, _, t, _, last, pacer, n, ws =>
    ⟨false, last, pacer, false, t, n, ws⟩
  | r + 1, i, t, d, last, pacer, n, ws =>
    if stopSet stopAt t then
      ⟨false, last, pacer, false, t + 1, n, ws⟩
    else
      let w := d * jit (i - 1)
      let ws1 := ws ++ [⟨i, d, w⟩]
      if stopSet stopAt (t + 1) then
        ⟨false, last, pacer, false, t + 2, n, ws1⟩
      else
        let a := att i
        if a.1 then
          ⟨true, none, pacer, false, t + 2, n + 1, ws1⟩
        else
          retryLoop att jit stopAt r (i + 1) (t + 2)
            (min (d * 2) RETRY_MAX_DELAY) a.2
            (if a.2 = some 421 then on_retry_421 pacer else pacer)
            (n + 1) ws1

/-- Function `send_with_retries` (lines 331-372).  `att i` is the result of the
`i`-th `send_one_email` call, `jit k` the jitter drawn for the `k`-th wait,
`t` the tick of the cancel-event poll counter at entry, `serverIn` whether
the passed-in server handle is live (always true when called from `main`,
which establishes the connection first). -/
def send_with_retries (att : Nat → Bool × Option Nat) (jit : Nat → ℚ)
    (stopAt : Option Nat) (t : Nat) (pacer : PacerState) (serverIn : Bool)
    (max_retries : Nat) : RetryTrace :=
  let a := att 0
  if a.1 then ⟨true, none, pacer, serverIn, t, 1, []⟩
  else
    let pacer1 := if a.2 = some 421 then on_retry_421 pacer else pacer
    retryLoop att jit stopAt (max_retries - 1) 1 t RETRY_BASE_DELAY a.2
      pacer1 1 []

/-! ## Filenames and the address lookup (lines 80-152, 375-406, 437-467) -/

/-- Python `name.split("_")` on the code points of a filename. -/
def splitUnderscore : List Char → List (List Char)
  | [] => [[]]
  | c :: cs =>
    let r := splitUnderscore cs
    if c = '_' then [] :: r
    else
      match r with
      | [] => [[c]]
      | h :: t => (c :: h) :: t

/-- The filename test of `collect_supplier_files` (lines 139-149): `.xlsx`
suffix, at least 3 `_`-separated fields, second-to-last field a 5-digit
string.  Returns the supplier code when the filename qualifies. -/
def supplier_code_of (filename : String) : Option String :=
  let cs := filename.data
  if ¬ (".xlsx".data.isSuffixOf cs) then none
  else if ¬ cs.contains '_' then none
  else
    let parts := splitUnderscore cs
    if parts.length < 3 then none
    else
      let code := parts.getD (parts.length - 2) []
      if code.all Char.isDigit ∧ code.length = 5 then some (String.mk code)
      else none

/-- Python `result.setdefault(code, []).append(path)` on an insertion-ordered
association list (line 151). -/
def assocAppend (acc : List (String × List String)) (code f : String) :
    List (String × List String) :=
  match acc with
  | [] => [(code, [f])]
  | (c, fs) :: rest =>
    if c = code then (c, fs ++ [f]) :: rest
    else (c, fs) :: assocAppend rest code f

/-- Function `collect_supplier_files` (lines 130-152) over the `os.listdir` result of
the pending directory.  Files are identified by their names (the full path
only prepends the fixed pending directory).  The returned association list
preserves Python dict insertion order. -/
def collect_supplier_files (entries : List String) :
    List (String × List String) :=
  entries.foldl (fun acc filename =>
    match supplier_code_of filename with
    | none => acc
    | some code => assocAppend acc code filename) []

/-- Python dict `.get` on an association list (keys unique, as in a dict). -/
def pyDictGet (m : List (String × String)) (k : String) : Option String :=
  (m.find? (fun e => e.1 == k)).map (fun e => e.2)

/-- Python truthiness of an optional string (`None` and `""` are falsy). -/
def truthyOpt : Option String → Bool
  | none => false
  | some s => !(s == "")

/-- Python `str.isdigit` (ASCII digits; empty string is falsy). -/
def pyIsdigit (s : String) : Bool :=
  !s.data.isEmpty && s.data.all Char.isDigit

/-- Python `str(int(code))` for a digit string: strip leading zeros (all-zero
strings collapse to `"0"`). -/
def strip_zeros (s : String) : String :=
  match s.data.dropWhile (fun c => c == '0') with
  | [] => "0"
  | l => String.mk l

/-- The address lookup used at lines 403, 463 and 490:
`email_addresses.get(code) or email_addresses.get(str(int(code)) if
code.isdigit() else "")`, with Python `or` falling through on falsy
values. -/
def lookup_to_email (addr : List (String × String)) (code : String) :
    Option String :=
  let first := pyDictGet addr code
  if truthyOpt first then first
  else pyDictGet addr (if pyIsdigit code then strip_zeros code else "")

/-! ## Origin-folder selection and sorting (lines 384-394, 437-448) -/

/-- Python string comparison `a < b`: lexicographic on code points. -/
def lexLt : List Char → List Char → Bool
  | _, [] => false
  | [], _ :: _ => true
  | a :: as, b :: bs =>
    if a.toNat < b.toNat then true
    else if a.toNat = b.toNat then lexLt as bs
    else false

/-- Comparison `a <= b` for Python strings, the order used by `sorted`. -/
def strLe (a b : String) : Prop := lexLt b.data a.data = false

instance : DecidableRel strLe := fun a b => by
  unfold strLe; exact instDecidableEqBool _ _

/-- Python `sorted` on a list of names (ascending lexicographic; the inputs,
`os.listdir` results, carry no duplicates, so stability is irrelevant). -/
def sortNames (l : List String) : List String :=
  List.insertionSort strLe l

/-- Constant `SKIP_NAMES` from config.py line 21. -/
def SKIP_NAMES : List String := ["已外发", "待外发"]

/-- Filesystem reads used by task construction: `os.listdir(root_dir)` in OS
order, `os.path.isdir(root/name)`, existence of the 待外发 / 已外发
subfolders, and the `os.listdir` of a folder's 待外发. -/
structure FSState where
  rootList : List String
  isRootDirEntry : String → Bool
  hasPending : String → Bool
  hasSent : String → Bool
  pendingList : String → List String

/-- The `all_entries` scan shared by `main` (lines 437-443) and
`count_pending_tasks` (lines 383-389): root entries that are not in
`SKIP_NAMES`, are directories, and end in 项目. -/
def project_folders (fs : FSState) : List String :=
  fs.rootList.filter (fun n =>
    !(SKIP_NAMES.contains n) && fs.isRootDirEntry n &&
      "项目".data.isSuffixOf n.data)

/-- The `to_process` selection shared by `main` (lines 444-448) and
`count_pending_tasks` (lines 390-394): sort, then keep the allow-listed
names.  A `some []` filter behaves like `none` (Python falsiness of the
empty list). -/
def to_process (fs : FSState) (project_names : Option (List String)) :
    List String :=
  let allE := project_folders fs
  match project_names with
  | none => sortNames allE
  | some ns =>
    if ns.isEmpty then sortNames allE
    else (sortNames allE).filter (fun n => ns.contains n)

/-! ## Task construction (main, lines 450-467) -/

/-- A task `(project_folder, supplier_code, files)` (line 467); named
`SendTask` because `Task` is taken by the Lean core library. -/
structure SendTask where
  project : String
  code : String
  files : List String
deriving DecidableEq

/-- The inner loop of lines 462-467: one task per supplier code of the
folder whose address lookup is truthy, in dict order. -/
def tasks_of_folder (addr : List (String × String)) (entries : List String)
    (pf : String) : List SendTask :=
  (collect_supplier_files entries).foldl (fun acc e =>
    if truthyOpt (lookup_to_email addr e.1) then acc ++ [⟨pf, e.1, e.2⟩]
    else acc) []

/-- The task list built by `main` (lines 450-467): per processed folder,
skip it unless both 待外发 and 已外发 exist, then append its tasks. -/
def build_tasks (fs : FSState) (addr : List (String × String))
    (project_names : Option (List String)) : List SendTask :=
  (to_process fs project_names).foldl (fun acc pf =>
    if fs.hasPending pf && fs.hasSent pf then
      acc ++ tasks_of_folder addr (fs.pendingList pf) pf
    else acc) []

/-- Function `count_pending_tasks` (lines 375-406): same folder selection, but only
待外发 is required to exist; counts the supplier codes with a truthy
address lookup. -/
def count_pending_tasks (fs : FSState) (addr : List (String × String))
    (project_names : Option (List String)) : Nat :=
  (to_process fs project_names).foldl (fun c pf =>
    if fs.hasPending pf then
      c + (collect_supplier_files (fs.pendingList pf)).countP
            (fun e => truthyOpt (lookup_to_email addr e.1))
    else c) 0

/-! ## The dispatch loop of main (lines 409-590) -/

/-- The `result` dict of `main` (line 422). -/
structure MainResult where
  success : Nat
  failed : Nat
  skipped : Nat
  cancelled : Bool
deriving DecidableEq

/-- How one built task ended the run: never reached (loop exited first),
sent successfully, terminally failed at the send stage (lines 549-563), or
failed because the SMTP connection could not be established (lines 513-521,
which count the task as failed without touching its files). -/
inductive TaskOutcome
  | unreached
  | succeeded
  | sendFailed
  | connFailed
deriving DecidableEq

/-- Mutable state of the dispatch loop: the `result` dict, the pacer, whether
`smtp_server` is a live connection, `consecutive_conn_failures`, the number
of `_create_smtp_connection` calls so far (indexing the connection oracle),
the cancel-poll tick, and a ghost flag recording the early `break` after 3
consecutive connection failures (lines 518-520). -/
structure RunState where
  res : MainResult
  pacer : PacerState
  serverLive : Bool
  connFails : Nat
  connCalls : Nat
  tick : Nat
  aborted : Bool
deriving DecidableEq

/-- External non-determinism of one run: per task index, the
`send_one_email` results and the jitters; per connection attempt, whether
`_create_smtp_connection` succeeds (an exception — including the one it
raises when cancelled — counts as failure, lines 513-521); and the tick from
which the cancel event is set. -/
structure Env where
  att : Nat → Nat → Bool × Option Nat
  jit : Nat → Nat → ℚ
  connOk : Nat → Bool
  stopAt : Option Nat

/-- Outcome list for tasks the loop never reached. -/
def markUnreached (l : List SendTask) : List TaskOutcome :=
  l.map (fun _ => TaskOutcome.unreached)

/-- Tick bump after a cancel-event poll. -/
def bumpTick (st : RunState) : RunState := { st with tick := st.tick + 1 }

/-- Call `pacer.before_send(stop_event)` at line 503 (the pause inside it polls
the event but decides no loop control flow; the check at line 504 is the
next poll). -/
def paceState (st : RunState) : RunState :=
  { st with pacer := (before_send st.pacer).1 }

/-- Cancellation observed (lines 487-489 / 504-506): set
`result["cancelled"]` and leave the loop. -/
def cancelState (st : RunState) : RunState :=
  { st with res := { st.res with cancelled := true }, tick := st.tick + 1 }

/-- Call to `_create_smtp_connection` succeeded (lines 511-512): live server,
`consecutive_conn_failures = 0`. -/
def connOkState (st : RunState) : RunState :=
  { st with serverLive := true, connFails := 0,
            connCalls := st.connCalls + 1 }

/-- Call to `_create_smtp_connection` raised (lines 513-517): the task is counted
as failed without reaching the send or the file routing. -/
def connFailState (st : RunState) : RunState :=
  { st with res := { st.res with failed := st.res.failed + 1 },
            connFails := st.connFails + 1,
            connCalls := st.connCalls + 1 }

/-- The early `break` of lines 518-520 (ghost flag). -/
def abortState (st : RunState) : RunState := { st with aborted := true }

/-- Lines 524-563: `send_with_retries` on a live connection, then
`pacer.on_send_result`, the `result` update and the task outcome that
drives the file routing. -/
def stepSend (env : Env) (i : Nat) (st : RunState) : RunState × TaskOutcome :=
  let tr := send_with_retries (env.att i) (env.jit i) env.stopAt
    st.tick st.pacer true MAX_RETRIES
  ({ st with
      pacer := on_send_result tr.pacer tr.success tr.lastCode,
      serverLive := tr.serverLive,
      tick := tr.tick,
      res :=
        if tr.success then
          { st.res with success := st.res.success + 1 }
        else
          { st.res with failed := st.res.failed + 1 } },
   if tr.success then TaskOutcome.succeeded else TaskOutcome.sendFailed)

/-- The `for project_folder, supplier_code, files in tasks` loop of `main`
(lines 484-580), as a function of the remaining tasks, the index of the
current task and the loop state.  Returns the final state and one outcome
per remaining task.  Task fields drive only the message content, never the
control flow.  Progress reporting (lines 566-580) touches no loop state
(callback exceptions are swallowed) and is omitted. -/
def mainLoopAux (env : Env) :
    List SendTask → Nat → RunState → RunState × List TaskOutcome
  | [], _, st => (st, [])
  | _t :: rest, i, st =>
    -- line 486: cancellation check at the top of the iteration
    if stopSet env.stopAt st.tick then
      (cancelState st, TaskOutcome.unreached :: markUnreached rest)
    else
      let st1 := bumpTick (paceState st)
      -- line 504: cancellation check after the pace
      if stopSet env.stopAt st1.tick then
        (cancelState st1, TaskOutcome.unreached :: markUnreached rest)
      else
        let st2 := bumpTick st1
        -- lines 509-521: ensure the SMTP connection
        if st2.serverLive then
          let sr := stepSend env i st2
          let r := mainLoopAux env rest (i + 1) sr.1
          (r.1, sr.2 :: r.2)
        else if env.connOk st2.connCalls then
          let sr := stepSend env i (connOkState st2)
          let r := mainLoopAux env rest (i + 1) sr.1
          (r.1, sr.2 :: r.2)
        else
          let st3 := connFailState st2
          if 3 ≤ st3.connFails then
            (abortState st3, TaskOutcome.connFailed :: markUnreached rest)
          else
            let r := mainLoopAux env rest (i + 1) st3
            (r.1, TaskOutcome.connFailed :: r.2)

/-- Loop state at entry of `main`'s dispatch loop (lines 422, 474-481). -/
def initState : RunState :=
  { res := { success := 0, failed := 0, skipped := 0, cancelled := false },
    pacer := pacerInit, serverLive := false, connFails := 0, connCalls := 0,
    tick := 0, aborted := false }

/-- Function `main` (lines 409-590): an invalid SMTP configuration returns the empty
result before building tasks (lines 426-429); otherwise build the task list
and run the dispatch loop (`total == 0` early return and running the loop on
an empty list coincide).  Named `main_run` because `main` is reserved by
Lean. -/
def main_run (fs : FSState) (addr : List (String × String))
    (project_names : Option (List String)) (env : Env) (configOk : Bool) :
    RunState × List TaskOutcome :=
  if configOk then
    mainLoopAux env (build_tasks fs addr project_names) 0 initState
  else (initState, [])

/-! ## File routing (lines 540-563) -/

/-- Where a file of a task sits after the run. -/
inductive Loc
  | pending
  | delivered
  | failedLoc
deriving DecidableEq

/-- Final location of one file of a task, from the task's outcome, whether
`os.makedirs(failed_dir)` succeeded (line 555) and whether the file's
`shutil.move` succeeded (lines 545, 558; a failed move is logged and leaves
the file in 待外发).  Tasks that failed at connection establishment never
reach the routing code, so their files stay in 待外发. -/
def fileLocAfter (oc : TaskOutcome) (mkdirOk : Bool) (moveOk : Bool) : Loc :=
  match oc with
  | TaskOutcome.succeeded => if moveOk then Loc.delivered else Loc.pending
  | TaskOutcome.sendFailed =>
    if mkdirOk && moveOk then Loc.failedLoc else Loc.pending
  | _ => Loc.pending

/-! ## Pacer lemmas and claims C6, C7 -/

/-- Pause value after a sequence of burst-boundary adjustments, each burst
described by whether it saw a 421. -/
def pause_after (bs : List Bool) : ℚ :=
  bs.foldl (fun p b => adjust_pause b p) BURST_PAUSE_INITIAL

theorem adjust_pause_mem (b : Bool) (p : ℚ) (h1 : BURST_PAUSE_MIN ≤ p)
    (h2 : p ≤ BURST_PAUSE_MAX) :
    BURST_PAUSE_MIN ≤ adjust_pause b p ∧ adjust_pause b p ≤ BURST_PAUSE_MAX := by
  unfold adjust_pause BURST_PAUSE_MIN BURST_PAUSE_MAX BURST_PAUSE_MULTIPLY
    BURST_PAUSE_DECREASE at *
  cases b with
  | false =>
    refine ⟨le_max_left _ _, max_le (by norm_num) (by linarith)⟩
  | true =>
    refine ⟨le_min (by norm_num) (by nlinarith), min_le_left _ _⟩

theorem pause_foldl_mem (bs : List Bool) :
    ∀ p : ℚ, BURST_PAUSE_MIN ≤ p → p ≤ BURST_PAUSE_MAX →
      BURST_PAUSE_MIN ≤ bs.foldl (fun q b => adjust_pause b q) p ∧
        bs.foldl (fun q b => adjust_pause b q) p ≤ BURST_PAUSE_MAX := by
  induction bs with
  | nil => intro p h1 h2; simpa using ⟨h1, h2⟩
  | cons b bs ih =>
    intro p h1 h2
    have h := adjust_pause_mem b p h1 h2
    simpa using ih _ h.1 h.2

/-- C7: across any sequence of burst-boundary adjustments the pause stays in
`[BURST_PAUSE_MIN, BURST_PAUSE_MAX]`; a burst without a 421 strictly
decreases it unless it already sits at the minimum, where it stays; a burst
with a 421 strictly increases it unless it already sits at the maximum,
where it stays. -/
theorem pacer_pause_bounds_and_monotone :
    (∀ bs : List Bool,
      BURST_PAUSE_MIN ≤ pause_after bs ∧ pause_after bs ≤ BURST_PAUSE_MAX) ∧
    (∀ p : ℚ, BURST_PAUSE_MIN ≤ p → p ≤ BURST_PAUSE_MAX →
      (BURST_PAUSE_MIN < p → adjust_pause false p < p) ∧
      (p = BURST_PAUSE_MIN → adjust_pause false p = BURST_PAUSE_MIN) ∧
      (p < BURST_PAUSE_MAX → p < adjust_pause true p) ∧
      (p = BURST_PAUSE_MAX → adjust_pause true p = BURST_PAUSE_MAX)) := by
  constructor
  · intro bs
    exact pause_foldl_mem bs BURST_PAUSE_INITIAL
      (by norm_num [BURST_PAUSE_MIN, BURST_PAUSE_INITIAL])
      (by norm_num [BURST_PAUSE_MAX, BURST_PAUSE_INITIAL])
  · intro p h1 h2
    unfold adjust_pause BURST_PAUSE_MIN BURST_PAUSE_MAX BURST_PAUSE_MULTIPLY
      BURST_PAUSE_DECREASE at *
    refine ⟨fun h => ?_, fun h => ?_, fun h => ?_, fun h => ?_⟩
    · have hx : max 3 (p - 1/2) < p := max_lt (by linarith) (by linarith)
      simpa using hx
    · subst h; simp only [if_neg Bool.false_ne_true]
      exact max_eq_left (by norm_num)
    · have hx : p < min 60 (p * 2) := lt_min (by linarith) (by linarith)
      simpa using hx
    · subst h; simp only [if_pos rfl]
      exact min_eq_left (by norm_num)

/-- Witness for C7 at concrete inputs. -/
theorem pacer_pause_bounds_and_monotone_witness :
    (BURST_PAUSE_MIN ≤ pause_after [true, false] ∧
      pause_after [true, false] ≤ BURST_PAUSE_MAX) ∧
    adjust_pause false 10 < 10 ∧ 10 < adjust_pause true 10 :=
  ⟨pacer_pause_bounds_and_monotone.1 [true, false],
   (pacer_pause_bounds_and_monotone.2 10
      (by norm_num [BURST_PAUSE_MIN]) (by norm_num [BURST_PAUSE_MAX])).1
     (by norm_num [BURST_PAUSE_MIN]),
   ((pacer_pause_bounds_and_monotone.2 10
      (by norm_num [BURST_PAUSE_MIN]) (by norm_num [BURST_PAUSE_MAX])).2.2.1
     (by norm_num [BURST_PAUSE_MAX]))⟩

/-- C6 (counterexample): with the burst counter at `BURST_SIZE` and a 421 in
the burst, the duration slept by `before_send` is the already-adjusted pause
(20s), not the current pause (10s) as the claim states: `_do_pause` adjusts
first and sleeps afterwards. -/
theorem before_send_sleeps_adjusted_value :
    (before_send { pause := 10, burst_count := 5, burst_had_421 := true }).2 ≠
      some (10 : ℚ) ∧
    (before_send { pause := 10, burst_count := 5, burst_had_421 := true }).2 =
      some (20 : ℚ) := by
  constructor <;>
    norm_num [before_send, _do_pause, adjust_pause, BURST_SIZE,
      BURST_PAUSE_MAX, BURST_PAUSE_MULTIPLY, min_def]

/-- C6 (amended): when the burst counter has reached `BURST_SIZE`,
`before_send` first adjusts the pause (multiplying, capped, if the burst saw
a transient failure; decreasing linearly, floored, otherwise), then pauses
for the adjusted duration, and resets the burst counter and the transient
flag; below the threshold it does nothing. -/
theorem before_send_spec (p : PacerState) :
    (BURST_SIZE ≤ p.burst_count →
      (before_send p).2 = some ((before_send p).1.pause) ∧
      (before_send p).1.pause = adjust_pause p.burst_had_421 p.pause ∧
      (before_send p).1.burst_count = 0 ∧
      (before_send p).1.burst_had_421 = false ∧
      (p.burst_had_421 = true → (before_send p).1.pause =
        min BURST_PAUSE_MAX (p.pause * BURST_PAUSE_MULTIPLY)) ∧
      (p.burst_had_421 = false → (before_send p).1.pause =
        max BURST_PAUSE_MIN (p.pause - BURST_PAUSE_DECREASE))) ∧
    (p.burst_count < BURST_SIZE → before_send p = (p, none)) := by
  constructor
  · intro h
    unfold before_send _do_pause
    rw [if_pos h]
    refine ⟨rfl, rfl, rfl, rfl, fun h4 => by simp [adjust_pause, h4],
      fun h4 => by simp [adjust_pause, h4]⟩
  · intro h
    simp only [before_send, if_neg (not_le.mpr h)]

/-- Witness for C6 (amended) at a concrete pacer state. -/
theorem before_send_spec_witness :
    (before_send { pause := 10, burst_count := 5, burst_had_421 := true }).2 =
      some ((before_send
        { pause := 10, burst_count := 5, burst_had_421 := true }).1.pause) ∧
    (before_send { pause := 7, burst_count := 2, burst_had_421 := false }) =
      ({ pause := 7, burst_count := 2, burst_had_421 := false }, none) :=
  ⟨((before_send_spec _).1 (by norm_num [BURST_SIZE])).1,
   (before_send_spec _).2 (by norm_num [BURST_SIZE])⟩

/-! ## Retry-loop lemmas and claims C3, C8, C9 -/

theorem retryLoop_attempts_le (att : Nat → Bool × Option Nat) (jit : Nat → ℚ)
    (stopAt : Option Nat) :
    ∀ (r i t : Nat) (d : ℚ) (last : Option Nat) (pacer : PacerState)
      (n : Nat) (ws : List WaitRec),
      (retryLoop att jit stopAt r i t d last pacer n ws).attemptsMade ≤
        n + r := by
  intro r
  induction r with
  | zero => intro i t d last pacer n ws; simp [retryLoop]
  | succ r ih =>
    intro i t d last pacer n ws
    simp only [retryLoop]
    split
    · simp
    · split
      · simp
      · split
        · simp
        · exact le_trans (ih _ _ _ _ _ _ _) (by omega)

theorem retryLoop_all_fail (att : Nat → Bool × Option Nat) (jit : Nat → ℚ)
    (h : ∀ k, (att k).1 = false) :
    ∀ (r i t : Nat) (d : ℚ) (last : Option Nat) (pacer : PacerState)
      (n : Nat) (ws : List WaitRec),
      (retryLoop att jit none r i t d last pacer n ws).success = false ∧
      (retryLoop att jit none r i t d last pacer n ws).attemptsMade =
        n + r := by
  intro r
  induction r with
  | zero => intro i t d last pacer n ws; simp [retryLoop]
  | succ r ih =>
    intro i t d last pacer n ws
    simp only [retryLoop, stopSet, Bool.false_eq_true, if_false, h i]
    have := ih (i + 1) (t + 2) (min (d * 2) RETRY_MAX_DELAY) (att i).2
      (if (att i).2 = some 421 then on_retry_421 pacer else pacer)
      (n + 1) (ws ++ [⟨i, d, d * jit (i - 1)⟩])
    exact ⟨this.1, by rw [this.2]; omega⟩

/-- C3 (counterexample): a first attempt failing with the non-transient code
550 does not short-circuit the retry loop — with every attempt failing with
550 and no cancellation, `send_with_retries` performs all
`MAX_RETRIES = 5` attempts instead of stopping after the first. -/
theorem non_transient_failure_still_retried :
    (fun _ : Nat => ((false : Bool), some 550)) 0 = (false, some 550) ∧
    (send_with_retries (fun _ => (false, some 550)) (fun _ => 1) none 0
      pacerInit true MAX_RETRIES).attemptsMade = 5 ∧
    (send_with_retries (fun _ => (false, some 550)) (fun _ => 1) none 0
      pacerInit true MAX_RETRIES).attemptsMade ≠ 1 :=
  ⟨rfl, by decide, by decide⟩

/-- C3 (amended): `send_with_retries` never inspects the failure
classification to stop early: as long as the cancel event is unset, every
failure — transient or not — is retried until the attempt ceiling
`MAX_RETRIES` (first attempt included) is exhausted, and exhaustion yields a
terminal failure. -/
theorem send_with_retries_exhausts_attempts (att : Nat → Bool × Option Nat)
    (jit : Nat → ℚ) (t : Nat) (pacer : PacerState) (serverIn : Bool)
    (h : ∀ k, (att k).1 = false) :
    (send_with_retries att jit none t pacer serverIn MAX_RETRIES).success =
      false ∧
    (send_with_retries att jit none t pacer serverIn
      MAX_RETRIES).attemptsMade = MAX_RETRIES := by
  unfold send_with_retries
  simp only [h 0, Bool.false_eq_true, if_false]
  have := retryLoop_all_fail att jit h (MAX_RETRIES - 1) 1 t RETRY_BASE_DELAY
    (att 0).2 (if (att 0).2 = some 421 then on_retry_421 pacer else pacer) 1 []
  exact ⟨this.1, by rw [this.2]; norm_num [MAX_RETRIES]⟩

/-- Witness for C3 (amended): all attempts failing with no code. -/
theorem send_with_retries_exhausts_attempts_witness :
    (send_with_retries (fun _ => (false, none)) (fun _ => 1) none 0 pacerInit
      true MAX_RETRIES).success = false ∧
    (send_with_retries (fun _ => (false, none)) (fun _ => 1) none 0 pacerInit
      true MAX_RETRIES).attemptsMade = MAX_RETRIES :=
  send_with_retries_exhausts_attempts _ _ 0 pacerInit true (fun _ => rfl)

/-- Specification of one recorded backoff wait: the nominal delay follows
`RETRY_BASE_DELAY` doubled per retry and capped at `RETRY_MAX_DELAY`, and
the requested wait is the nominal delay times the drawn jitter. -/
def waitSpec (jit : Nat → ℚ) (w : WaitRec) : Prop :=
  1 ≤ w.idx ∧
  w.nominal = min (RETRY_BASE_DELAY * 2 ^ (w.idx - 1)) RETRY_MAX_DELAY ∧
  w.wait = w.nominal * jit (w.idx - 1)

theorem delay_step (i : Nat) (h : 1 ≤ i) :
    min (min (RETRY_BASE_DELAY * 2 ^ (i - 1)) RETRY_MAX_DELAY * 2)
      RETRY_MAX_DELAY =
    min (RETRY_BASE_DELAY * 2 ^ (i + 1 - 1)) RETRY_MAX_DELAY := by
  unfold RETRY_BASE_DELAY RETRY_MAX_DELAY
  have h2 : (min (30 * 2 ^ (i - 1)) 60 : ℚ) * 2 =
      min (30 * 2 ^ (i - 1) * 2) (60 * 2) :=
    min_mul_of_nonneg _ _ (by norm_num)
  have h3 : (30 : ℚ) * 2 ^ (i - 1) * 2 = 30 * 2 ^ i := by
    rw [mul_assoc, ← pow_succ]
    congr 2
    omega
  rw [h2, h3, min_assoc]
  norm_num

theorem retryLoop_waits (att : Nat → Bool × Option Nat) (jit : Nat → ℚ)
    (stopAt : Option Nat) :
    ∀ (r i t : Nat) (d : ℚ) (last : Option Nat) (pacer : PacerState)
      (n : Nat) (ws : List WaitRec), 1 ≤ i →
      d = min (RETRY_BASE_DELAY * 2 ^ (i - 1)) RETRY_MAX_DELAY →
      (∀ w ∈ ws, waitSpec jit w) →
      ∀ w ∈ (retryLoop att jit stopAt r i t d last pacer n ws).waits,
        waitSpec jit w := by
  intro r
  induction r with
  | zero =>
    intro i t d last pacer n ws _ _ hws
    simpa [retryLoop] using hws
  | succ r ih =>
    intro i t d last pacer n ws hi hd hws
    have hnew : ∀ w ∈ ws ++ [(⟨i, d, d * jit (i - 1)⟩ : WaitRec)],
        waitSpec jit w := by
      intro w hw
      rcases List.mem_append.mp hw with hw | hw
      · exact hws w hw
      · rcases List.mem_singleton.mp hw with rfl
        exact ⟨hi, hd, rfl⟩
    simp only [retryLoop]
    split
    · simpa using hws
    · split
      · simpa using hnew
      · split
        · simpa using hnew
        · exact ih (i + 1) _ _ _ _ _ _ (by omega)
            (by rw [hd]; exact (delay_step i hi).symm ▸ rfl) hnew

/-- C8: per task, `send_with_retries` performs at most `MAX_RETRIES` send
attempts (first attempt included); every recorded backoff wait has nominal
delay `min (RETRY_BASE_DELAY * 2 ^ (k-1)) RETRY_MAX_DELAY` for retry `k`
(base delay first, doubling until the cap, hence non-decreasing across
retries), and the requested wait equals the nominal delay times the drawn
jitter, so it lies in the `[0.8, 1.2]` band (written `4/5`, `6/5`) around
the nominal delay. -/
theorem send_with_retries_backoff_spec (att : Nat → Bool × Option Nat)
    (jit : Nat → ℚ) (stopAt : Option Nat) (t : Nat) (pacer : PacerState)
    (serverIn : Bool)
    (hj : ∀ k, (4/5 : ℚ) ≤ jit k ∧ jit k ≤ 6/5) :
    (send_with_retries att jit stopAt t pacer serverIn
      MAX_RETRIES).attemptsMade ≤ MAX_RETRIES ∧
    (∀ w ∈ (send_with_retries att jit stopAt t pacer serverIn
        MAX_RETRIES).waits,
      1 ≤ w.idx ∧
      w.nominal = min (RETRY_BASE_DELAY * 2 ^ (w.idx - 1)) RETRY_MAX_DELAY ∧
      w.wait = w.nominal * jit (w.idx - 1) ∧
      4/5 * w.nominal ≤ w.wait ∧ w.wait ≤ 6/5 * w.nominal) ∧
    (∀ w ∈ (send_with_retries att jit stopAt t pacer serverIn
        MAX_RETRIES).waits,
      ∀ w2 ∈ (send_with_retries att jit stopAt t pacer serverIn
        MAX_RETRIES).waits,
      w.idx ≤ w2.idx → w.nominal ≤ w2.nominal) := by
  have hspec : ∀ w ∈ (send_with_retries att jit stopAt t pacer serverIn
      MAX_RETRIES).waits, waitSpec jit w := by
    cases h0 : (att 0).1 with
    | true => simp [send_with_retries, h0]
    | false =>
      simp only [send_with_retries, h0, Bool.false_eq_true, if_false]
      exact retryLoop_waits att jit stopAt (MAX_RETRIES - 1) 1 t
        RETRY_BASE_DELAY _ _ 1 [] le_rfl
        (by norm_num [RETRY_BASE_DELAY, RETRY_MAX_DELAY, min_def])
        (by simp)
  have hnonneg : ∀ w, waitSpec jit w → (0 : ℚ) ≤ w.nominal := by
    intro w hw
    rw [hw.2.1]
    refine le_min ?_ (by norm_num [RETRY_MAX_DELAY])
    unfold RETRY_BASE_DELAY
    positivity
  refine ⟨?_, ?_, ?_⟩
  · cases h0 : (att 0).1 with
    | true => simp [send_with_retries, h0, MAX_RETRIES]
    | false =>
      simp only [send_with_retries, h0, Bool.false_eq_true, if_false]
      exact le_trans (retryLoop_attempts_le att jit stopAt _ _ _ _ _ _ _ _)
        (by norm_num [MAX_RETRIES])
  · intro w hw
    have h1 := hspec w hw
    have h0 := hnonneg w h1
    refine ⟨h1.1, h1.2.1, h1.2.2, ?_, ?_⟩
    · rw [h1.2.2, mul_comm (4/5 : ℚ) w.nominal]
      exact mul_le_mul_of_nonneg_left (hj _).1 h0
    · rw [h1.2.2, mul_comm (6/5 : ℚ) w.nominal]
      exact mul_le_mul_of_nonneg_left (hj _).2 h0
  · intro w hw w2 hw2 hle
    rw [(hspec w hw).2.1, (hspec w2 hw2).2.1]
    refine min_le_min ?_ le_rfl
    exact mul_le_mul_of_nonneg_left
      (pow_le_pow_right₀ (by norm_num) (by omega))
      (by norm_num [RETRY_BASE_DELAY])

/-- Witness for C8: unit jitter, every attempt failing with 421. -/
theorem send_with_retries_backoff_spec_witness :
    (4/5 : ℚ) ≤ 1 ∧
    (send_with_retries (fun _ => (false, some 421)) (fun _ => 1) none 0
      pacerInit true MAX_RETRIES).attemptsMade ≤ MAX_RETRIES :=
  ⟨by norm_num,
   (send_with_retries_backoff_spec (fun _ => (false, some 421)) (fun _ => 1)
      none 0 pacerInit true (fun _ => by norm_num)).1⟩

theorem retryLoop_421 (att : Nat → Bool × Option Nat) (jit : Nat → ℚ)
    (stopAt : Option Nat) :
    ∀ (r i t : Nat) (d : ℚ) (last : Option Nat) (pacer : PacerState)
      (n : Nat) (ws : List WaitRec), i = n →
      (∀ j, j < n → att j = (false, some 421) →
        pacer.burst_had_421 = true) →
      ∀ k, k < (retryLoop att jit stopAt r i t d last pacer n
          ws).attemptsMade →
        att k = (false, some 421) →
        (retryLoop att jit stopAt r i t d last pacer n
          ws).pacer.burst_had_421 = true := by
  intro r
  induction r with
  | zero =>
    intro i t d last pacer n ws hin hprev k hk ha
    exact hprev k (by simpa [retryLoop] using hk) ha
  | succ r ih =>
    intro i t d last pacer n ws hin hprev k hk ha
    cases hs1 : stopSet stopAt t with
    | true =>
      rw [retryLoop] at hk ⊢
      simp only [hs1, if_true] at hk ⊢
      exact hprev k hk ha
    | false =>
      cases hs2 : stopSet stopAt (t + 1) with
      | true =>
        rw [retryLoop] at hk ⊢
        simp [hs1, hs2] at hk ⊢
        exact hprev k hk ha
      | false =>
        cases hsucc : (att i).1 with
        | true =>
          rw [retryLoop] at hk ⊢
          simp [hs1, hs2, hsucc] at hk ⊢
          rcases Nat.lt_succ_iff_lt_or_eq.mp hk with hlt | hkn
          · exact hprev k hlt ha
          · rw [hin, ← hkn, ha] at hsucc
            simp at hsucc
        | false =>
          rw [retryLoop] at hk ⊢
          simp [hs1, hs2, hsucc] at hk ⊢
          refine ih (i + 1) _ _ _ _ (n + 1) _ (by omega) ?_ k hk ha
          intro j hj haj
          rcases Nat.lt_succ_iff_lt_or_eq.mp hj with hlt | hjn
          · have hp := hprev j hlt haj
            by_cases hc : (att i).2 = some 421
            · simp [hc, on_retry_421]
            · simp [hc, hp]
          · have h2 : (att i).2 = some 421 := by
              rw [hin, ← hjn, haj]
            simp [h2, on_retry_421]

/-- C9: if any executed attempt of `send_with_retries` fails with the
transient classification 421, the pacer's current-burst flag
`burst_had_421` is set in the returned state — regardless of the final
outcome of the task (in particular even when a later retry succeeds). -/
theorem send_with_retries_reports_421 (att : Nat → Bool × Option Nat)
    (jit : Nat → ℚ) (stopAt : Option Nat) (t : Nat) (pacer : PacerState)
    (serverIn : Bool) (k : Nat)
    (hk : k < (send_with_retries att jit stopAt t pacer serverIn
      MAX_RETRIES).attemptsMade)
    (ha : att k = (false, some 421)) :
    (send_with_retries att jit stopAt t pacer serverIn
      MAX_RETRIES).pacer.burst_had_421 = true := by
  cases h0 : (att 0).1 with
  | true =>
    rw [send_with_retries] at hk
    simp only [h0, if_true] at hk
    interval_cases k
    · rw [ha] at h0
      simp at h0
  | false =>
    rw [send_with_retries] at hk ⊢
    simp only [h0, Bool.false_eq_true, if_false] at hk ⊢
    refine retryLoop_421 att jit stopAt (MAX_RETRIES - 1) 1 t
      RETRY_BASE_DELAY _ _ 1 [] rfl ?_ k hk ha
    intro j hj haj
    have hj0 : j = 0 := by omega
    rw [hj0] at haj
    have h2 : (att 0).2 = some 421 := by rw [haj]
    simp [h2, on_retry_421]

/-- Witness for C9: first attempt fails with 421, the retry succeeds — the
task counts as a success and the flag is still reported. -/
theorem send_with_retries_reports_421_witness :
    (send_with_retries (fun k => if k = 0 then (false, some 421) else
      (true, none)) (fun _ => 1) none 0 pacerInit true
      MAX_RETRIES).success = true ∧
    (send_with_retries (fun k => if k = 0 then (false, some 421) else
      (true, none)) (fun _ => 1) none 0 pacerInit true
      MAX_RETRIES).pacer.burst_had_421 = true :=
  ⟨by decide,
   send_with_retries_reports_421 _ (fun _ => 1) none 0 pacerInit true 0
     (by decide) (by decide)⟩

/-! ## Loop-state projection lemmas -/

@[simp] theorem bumpTick_res (st : RunState) : (bumpTick st).res = st.res := rfl
@[simp] theorem bumpTick_tick (st : RunState) :
    (bumpTick st).tick = st.tick + 1 := rfl
@[simp] theorem bumpTick_serverLive (st : RunState) :
    (bumpTick st).serverLive = st.serverLive := rfl
@[simp] theorem bumpTick_connFails (st : RunState) :
    (bumpTick st).connFails = st.connFails := rfl
@[simp] theorem bumpTick_connCalls (st : RunState) :
    (bumpTick st).connCalls = st.connCalls := rfl
@[simp] theorem bumpTick_aborted (st : RunState) :
    (bumpTick st).aborted = st.aborted := rfl

@[simp] theorem paceState_res (st : RunState) : (paceState st).res = st.res := rfl
@[simp] theorem paceState_tick (st : RunState) :
    (paceState st).tick = st.tick := rfl
@[simp] theorem paceState_serverLive (st : RunState) :
    (paceState st).serverLive = st.serverLive := rfl
@[simp] theorem paceState_connFails (st : RunState) :
    (paceState st).connFails = st.connFails := rfl
@[simp] theorem paceState_connCalls (st : RunState) :
    (paceState st).connCalls = st.connCalls := rfl
@[simp] theorem paceState_aborted (st : RunState) :
    (paceState st).aborted = st.aborted := rfl

@[simp] theorem cancelState_success (st : RunState) :
    (cancelState st).res.success = st.res.success := rfl
@[simp] theorem cancelState_failed (st : RunState) :
    (cancelState st).res.failed = st.res.failed := rfl
@[simp] theorem cancelState_cancelled (st : RunState) :
    (cancelState st).res.cancelled = true := rfl
@[simp] theorem cancelState_aborted (st : RunState) :
    (cancelState st).aborted = st.aborted := rfl

@[simp] theorem connOkState_res (st : RunState) :
    (connOkState st).res = st.res := rfl
@[simp] theorem connOkState_aborted (st : RunState) :
    (connOkState st).aborted = st.aborted := rfl

@[simp] theorem connFailState_success (st : RunState) :
    (connFailState st).res.success = st.res.success := rfl
@[simp] theorem connFailState_failed (st : RunState) :
    (connFailState st).res.failed = st.res.failed + 1 := rfl
@[simp] theorem connFailState_cancelled (st : RunState) :
    (connFailState st).res.cancelled = st.res.cancelled := rfl
@[simp] theorem connFailState_connFails (st : RunState) :
    (connFailState st).connFails = st.connFails + 1 := rfl
@[simp] theorem connFailState_aborted (st : RunState) :
    (connFailState st).aborted = st.aborted := rfl

@[simp] theorem abortState_res (st : RunState) :
    (abortState st).res = st.res := rfl
@[simp] theorem abortState_aborted (st : RunState) :
    (abortState st).aborted = true := rfl

theorem stepSend_sum (env : Env) (i : Nat) (st : RunState) :
    (stepSend env i st).1.res.success + (stepSend env i st).1.res.failed =
      st.res.success + st.res.failed + 1 := by
  unfold stepSend
  cases h : (send_with_retries (env.att i) (env.jit i) env.stopAt
      st.tick st.pacer true MAX_RETRIES).success <;>
    simp [h] <;> omega

@[simp] theorem stepSend_cancelled (env : Env) (i : Nat) (st : RunState) :
    (stepSend env i st).1.res.cancelled = st.res.cancelled := by
  unfold stepSend
  cases h : (send_with_retries (env.att i) (env.jit i) env.stopAt
      st.tick st.pacer true MAX_RETRIES).success <;> simp [h]

@[simp] theorem stepSend_aborted (env : Env) (i : Nat) (st : RunState) :
    (stepSend env i st).1.aborted = st.aborted := by
  unfold stepSend
  cases h : (send_with_retries (env.att i) (env.jit i) env.stopAt
      st.tick st.pacer true MAX_RETRIES).success <;> simp [h]

theorem stepSend_oc (env : Env) (i : Nat) (st : RunState) :
    (stepSend env i st).2 = TaskOutcome.succeeded ∨
    (stepSend env i st).2 = TaskOutcome.sendFailed := by
  unfold stepSend
  cases h : (send_with_retries (env.att i) (env.jit i) env.stopAt
      st.tick st.pacer true MAX_RETRIES).success <;> simp [h]

/-! ## Loop invariants for C1 and C2 -/

theorem mainLoopAux_sum (env : Env) :
    ∀ (l : List SendTask) (i : Nat) (st : RunState),
      ((mainLoopAux env l i st).1.res.success +
          (mainLoopAux env l i st).1.res.failed ≤
        st.res.success + st.res.failed + l.length) ∧
      ((mainLoopAux env l i st).1.res.cancelled = false →
        (mainLoopAux env l i st).1.aborted = false →
        (mainLoopAux env l i st).1.res.success +
          (mainLoopAux env l i st).1.res.failed =
          st.res.success + st.res.failed + l.length) := by
  intro l
  induction l with
  | nil => intro i st; simp [mainLoopAux]
  | cons a rest ih =>
    intro i st
    rw [mainLoopAux]
    by_cases hs1 : stopSet env.stopAt st.tick = true
    · simp only [if_pos hs1]
      refine ⟨by simp [List.length_cons], fun hc => ?_⟩
      simp at hc
    · simp only [if_neg hs1]
      by_cases hs2 : stopSet env.stopAt (st.tick + 1) = true
      · simp only [bumpTick_tick, paceState_tick, if_pos hs2]
        refine ⟨by simp [List.length_cons], fun hc => ?_⟩
        simp at hc
      · simp only [bumpTick_tick, paceState_tick, if_neg hs2]
        by_cases hl : st.serverLive = true
        · simp only [bumpTick_serverLive, paceState_serverLive, if_pos hl]
          have h := ih (i + 1) ((stepSend env i (bumpTick (bumpTick (paceState st)))).1)
          have hsum := stepSend_sum env i (bumpTick (bumpTick (paceState st)))
          simp only [bumpTick_res, paceState_res] at hsum
          constructor
          · refine le_trans h.1 ?_
            simp [List.length_cons]; omega
          · intro hc hb
            have := h.2 hc hb
            simp [List.length_cons]; omega
        · simp only [bumpTick_serverLive, paceState_serverLive, if_neg hl]
          by_cases hcok : env.connOk st.connCalls = true
          · simp only [bumpTick_connCalls, paceState_connCalls, if_pos hcok]
            have h := ih (i + 1)
              ((stepSend env i (connOkState (bumpTick (bumpTick (paceState st))))).1)
            have hsum := stepSend_sum env i
              (connOkState (bumpTick (bumpTick (paceState st))))
            simp only [connOkState_res, bumpTick_res, paceState_res] at hsum
            constructor
            · refine le_trans h.1 ?_
              simp [List.length_cons]; omega
            · intro hc hb
              have := h.2 hc hb
              simp [List.length_cons]; omega
          · simp only [bumpTick_connCalls, paceState_connCalls, if_neg hcok]
            by_cases hab : 3 ≤ (connFailState (bumpTick (bumpTick (paceState st)))).connFails
            · simp only [if_pos hab]
              refine ⟨by simp [List.length_cons]; omega, fun hc hb => ?_⟩
              simp at hb
            · simp only [if_neg hab]
              have h := ih (i + 1) (connFailState (bumpTick (bumpTick (paceState st))))
              constructor
              · refine le_trans h.1 ?_
                simp [List.length_cons]; omega
              · intro hc hb
                have := h.2 hc hb
                simp at this
                simp [List.length_cons]; omega

theorem mainLoopAux_len (env : Env) :
    ∀ (l : List SendTask) (i : Nat) (st : RunState),
      (mainLoopAux env l i st).2.length = l.length := by
  intro l
  induction l with
  | nil => intro i st; simp [mainLoopAux]
  | cons a rest ih =>
    intro i st
    rw [mainLoopAux]
    by_cases hs1 : stopSet env.stopAt st.tick = true
    · simp [if_pos hs1, markUnreached]
    · simp only [if_neg hs1]
      by_cases hs2 : stopSet env.stopAt (st.tick + 1) = true
      · simp [bumpTick_tick, paceState_tick, if_pos hs2, markUnreached]
      · simp only [bumpTick_tick, paceState_tick, if_neg hs2]
        by_cases hl : st.serverLive = true
        · simp [bumpTick_serverLive, paceState_serverLive, if_pos hl, ih]
        · simp only [bumpTick_serverLive, paceState_serverLive, if_neg hl]
          by_cases hcok : env.connOk st.connCalls = true
          · simp [bumpTick_connCalls, paceState_connCalls, if_pos hcok, ih]
          · simp only [bumpTick_connCalls, paceState_connCalls, if_neg hcok]
            by_cases hab :
                3 ≤ (connFailState (bumpTick (bumpTick (paceState st)))).connFails
            · rw [if_pos hab]; simp [markUnreached]
            · rw [if_neg hab]; simp [ih]

theorem mainLoopAux_unreached (env : Env) :
    ∀ (l : List SendTask) (i : Nat) (st : RunState),
      TaskOutcome.unreached ∈ (mainLoopAux env l i st).2 →
      (mainLoopAux env l i st).1.res.cancelled = true ∨
      (mainLoopAux env l i st).1.aborted = true := by
  intro l
  induction l with
  | nil => intro i st h; simp [mainLoopAux] at h
  | cons a rest ih =>
    intro i st h
    rw [mainLoopAux] at h ⊢
    by_cases hs1 : stopSet env.stopAt st.tick = true
    · simp [if_pos hs1]
    · simp only [if_neg hs1] at h ⊢
      by_cases hs2 : stopSet env.stopAt (st.tick + 1) = true
      · simp [bumpTick_tick, paceState_tick, if_pos hs2]
      · simp only [bumpTick_tick, paceState_tick, if_neg hs2] at h ⊢
        by_cases hl : st.serverLive = true
        · simp only [bumpTick_serverLive, paceState_serverLive,
            if_pos hl] at h ⊢
          rcases List.mem_cons.mp h with heq | hmem
          · rcases stepSend_oc env i (bumpTick (bumpTick (paceState st)))
              with ho | ho <;> rw [ho] at heq <;> simp at heq
          · exact ih (i + 1) _ hmem
        · simp only [bumpTick_serverLive, paceState_serverLive,
            if_neg hl] at h ⊢
          by_cases hcok : env.connOk st.connCalls = true
          · simp only [bumpTick_connCalls, paceState_connCalls,
              if_pos hcok] at h ⊢
            rcases List.mem_cons.mp h with heq | hmem
            · rcases stepSend_oc env i
                (connOkState (bumpTick (bumpTick (paceState st))))
                with ho | ho <;> rw [ho] at heq <;> simp at heq
            · exact ih (i + 1) _ hmem
          · simp only [bumpTick_connCalls, paceState_connCalls,
              if_neg hcok] at h ⊢
            by_cases hab :
                3 ≤ (connFailState (bumpTick (bumpTick (paceState st)))).connFails
            · rw [if_pos hab]; simp
            · rw [if_neg hab] at h ⊢
              rcases List.mem_cons.mp h with heq | hmem
              · simp at heq
              · exact ih (i + 1) _ hmem

/-! ## Claims C1, C2, C10 -/

/-- C1 scenario: four pending files for four addressable suppliers, and an
SMTP server whose connection establishment always fails. -/
def fsC1 : FSState :=
  { rootList := ["A项目"], isRootDirEntry := fun _ => true,
    hasPending := fun _ => true, hasSent := fun _ => true,
    pendingList := fun _ =>
      ["x_11111_a.xlsx", "x_22222_a.xlsx", "x_33333_a.xlsx",
       "x_44444_a.xlsx"] }

def addrC1 : List (String × String) :=
  [("11111", "e"), ("22222", "e"), ("33333", "e"), ("44444", "e")]

def envC1 : Env :=
  { att := fun _ _ => (false, none), jit := fun _ _ => 1,
    connOk := fun _ => false, stopAt := none }

/-- C1 (counterexample): after 3 consecutive connection failures the run
aborts early with `cancelled = false` but `success + failed = 3` while 4
tasks were built, refuting "not cancelled implies success + failed =
total". -/
theorem counts_not_equal_on_conn_abort :
    (main_run fsC1 addrC1 none envC1 true).1.res.cancelled = false ∧
    (build_tasks fsC1 addrC1 none).length = 4 ∧
    (main_run fsC1 addrC1 none envC1 true).1.res.success +
      (main_run fsC1 addrC1 none envC1 true).1.res.failed = 3 :=
  ⟨by decide, by decide, by decide⟩

/-- C1 (amended): every run of `main` satisfies
`success + failed ≤ total`, and when the run was neither cancelled nor
aborted early by 3 consecutive connection-establishment failures,
`success + failed = total` (with `total` the number of built tasks, `0`
when the configuration is invalid and no tasks are built). -/
theorem main_run_counts (fs : FSState) (addr : List (String × String))
    (pn : Option (List String)) (env : Env) (configOk : Bool) :
    (main_run fs addr pn env configOk).1.res.success +
      (main_run fs addr pn env configOk).1.res.failed ≤
      (if configOk then (build_tasks fs addr pn).length else 0) ∧
    ((main_run fs addr pn env configOk).1.res.cancelled = false →
      (main_run fs addr pn env configOk).1.aborted = false →
      (main_run fs addr pn env configOk).1.res.success +
        (main_run fs addr pn env configOk).1.res.failed =
        (if configOk then (build_tasks fs addr pn).length else 0)) := by
  unfold main_run
  by_cases hc : configOk = true
  · simp only [if_pos hc]
    have h := mainLoopAux_sum env (build_tasks fs addr pn) 0 initState
    simpa [initState] using h
  · simp [if_neg hc, initState]

/-- C1 scenario for the witness: a single task sent successfully. -/
def fsW1 : FSState :=
  { rootList := ["A项目"], isRootDirEntry := fun _ => true,
    hasPending := fun _ => true, hasSent := fun _ => true,
    pendingList := fun _ => ["x_11111_a.xlsx"] }

def addrW1 : List (String × String) := [("11111", "a@b")]

def envW1 : Env :=
  { att := fun _ _ => (true, none), jit := fun _ _ => 1,
    connOk := fun _ => true, stopAt := none }

/-- Witness for C1 (amended): a completed run reaches the equality. -/
theorem main_run_counts_witness :
    (main_run fsW1 addrW1 none envW1 true).1.res.success +
      (main_run fsW1 addrW1 none envW1 true).1.res.failed =
      (if true then (build_tasks fsW1 addrW1 none).length else 0) :=
  (main_run_counts fsW1 addrW1 none envW1 true).2 (by decide) (by decide)

/-- C2 scenario: one addressable pending file, connection establishment
fails once (no abort, no cancellation). -/
def fsC2 : FSState :=
  { rootList := ["B项目"], isRootDirEntry := fun _ => true,
    hasPending := fun _ => true, hasSent := fun _ => true,
    pendingList := fun _ => ["y_12345_b.xlsx"] }

def addrC2 : List (String × String) := [("12345", "e")]

def envC2 : Env :=
  { att := fun _ _ => (false, none), jit := fun _ _ => 1,
    connOk := fun _ => false, stopAt := none }

/-- C2 (counterexample): a task that fails at connection establishment is
counted as failed, yet its files stay in the pending location although the
run was not cancelled — "in the original pending location only if the run
was cancelled before the task was reached" is false on this run. -/
theorem file_stays_pending_without_cancellation :
    (main_run fsC2 addrC2 none envC2 true).2 = [TaskOutcome.connFailed] ∧
    (main_run fsC2 addrC2 none envC2 true).1.res.cancelled = false ∧
    (main_run fsC2 addrC2 none envC2 true).1.res.failed = 1 ∧
    fileLocAfter TaskOutcome.connFailed true true = Loc.pending :=
  ⟨by decide, by decide, by decide, by decide⟩

/-- C2 (amended): when every `os.makedirs`/`shutil.move` call succeeds,
each built task gets exactly one outcome, and its files end in the
per-origin delivered location iff the task succeeded, in the per-origin
failed location iff it terminally failed at the send stage, and in their
original pending location iff the task was never reached or failed at
connection establishment; a task is unreached only when the run was
cancelled or aborted early after 3 consecutive connection failures. -/
theorem main_run_file_locations (fs : FSState) (addr : List (String × String))
    (pn : Option (List String)) (env : Env) (configOk : Bool) :
    (main_run fs addr pn env configOk).2.length =
      (if configOk then (build_tasks fs addr pn).length else 0) ∧
    ∀ oc ∈ (main_run fs addr pn env configOk).2,
      (fileLocAfter oc true true = Loc.pending ↔
        (oc = TaskOutcome.unreached ∨ oc = TaskOutcome.connFailed)) ∧
      (fileLocAfter oc true true = Loc.delivered ↔
        oc = TaskOutcome.succeeded) ∧
      (fileLocAfter oc true true = Loc.failedLoc ↔
        oc = TaskOutcome.sendFailed) ∧
      (oc = TaskOutcome.unreached →
        (main_run fs addr pn env configOk).1.res.cancelled = true ∨
        (main_run fs addr pn env configOk).1.aborted = true) := by
  constructor
  · unfold main_run
    by_cases hc : configOk = true
    · simp only [if_pos hc]
      exact mainLoopAux_len env _ 0 initState
    · simp [if_neg hc]
  · intro oc hmem
    refine ⟨by cases oc <;> simp [fileLocAfter],
      by cases oc <;> simp [fileLocAfter],
      by cases oc <;> simp [fileLocAfter], ?_⟩
    intro ho
    subst ho
    unfold main_run at hmem ⊢
    by_cases hc : configOk = true
    · rw [if_pos hc] at hmem ⊢
      exact mainLoopAux_unreached env _ 0 initState hmem
    · rw [if_neg hc] at hmem
      simp at hmem

/-- C2 scenario for the witness: a single task delivered successfully. -/
def fsW2 : FSState :=
  { rootList := ["B项目"], isRootDirEntry := fun _ => true,
    hasPending := fun _ => true, hasSent := fun _ => true,
    pendingList := fun _ => ["y_12345_b.xlsx"] }

def addrW2 : List (String × String) := [("12345", "a@b")]

def envW2 : Env :=
  { att := fun _ _ => (true, none), jit := fun _ _ => 1,
    connOk := fun _ => true, stopAt := none }

/-- Witness for C2 (amended): the delivered-location equivalence holds for
the outcome of a concrete successful run. -/
theorem main_run_file_locations_witness :
    fileLocAfter TaskOutcome.succeeded true true = Loc.delivered ↔
      TaskOutcome.succeeded = TaskOutcome.succeeded :=
  ((main_run_file_locations fsW2 addrW2 none envW2 true).2
    TaskOutcome.succeeded (by decide)).2.1

/-! ## Claim C10 -/

@[simp] theorem bumpTick_pacer (st : RunState) :
    (bumpTick st).pacer = st.pacer := rfl
@[simp] theorem paceState_pacer (st : RunState) :
    (paceState st).pacer = (before_send st.pacer).1 := rfl
@[simp] theorem connOkState_tick (st : RunState) :
    (connOkState st).tick = st.tick := rfl
@[simp] theorem connOkState_pacer (st : RunState) :
    (connOkState st).pacer = st.pacer := rfl

/-- In `retryLoop`, the cancel event polls of the iteration for retry
`i + j` happen at ticks `t + 2*j` (top of the loop, before the wait) and
`t + 2*j + 1` (after the wait).  If the event becomes set exactly during
that backoff wait — unset at the pre-wait poll, set at the post-wait
poll, i.e. `s = t + (2*j + 1)` — and the attempts up to that wait all
failed, the loop performs no further attempt and returns failure with the
code of the last executed attempt. -/
theorem retryLoop_stop_in_wait (att : Nat → Bool × Option Nat)
    (jit : Nat → ℚ) (s : Nat) :
    ∀ (j r i t : Nat) (d : ℚ) (last : Option Nat) (pacer : PacerState)
      (n : Nat) (ws : List WaitRec),
      1 ≤ i → last = (att (i - 1)).2 →
      (∀ k, i ≤ k → k < i + j → (att k).1 = false) →
      j < r → s = t + (2 * j + 1) →
      (retryLoop att jit (some s) r i t d last pacer n ws).success = false ∧
      (retryLoop att jit (some s) r i t d last pacer n ws).attemptsMade =
        n + j ∧
      (retryLoop att jit (some s) r i t d last pacer n ws).lastCode =
        (att (i + j - 1)).2 ∧
      (retryLoop att jit (some s) r i t d last pacer n ws).tick =
        t + (2 * j + 2) := by
  intro j
  induction j with
  | zero =>
    intro r i t d last pacer n ws hi hlast hfail hr hs
    obtain ⟨r', rfl⟩ : ∃ r', r = r' + 1 := ⟨r - 1, by omega⟩
    have h1 : stopSet (some s) t = false := by
      simp only [stopSet, decide_eq_false_iff_not]; omega
    have h2 : stopSet (some s) (t + 1) = true := by
      simp only [stopSet, decide_eq_true_eq]; omega
    have hunfold : retryLoop att jit (some s) (r' + 1) i t d last pacer n
        ws = ⟨false, last, pacer, false, t + 2, n,
          ws ++ [⟨i, d, d * jit (i - 1)⟩]⟩ := by
      rw [retryLoop]
      simp only [h1, h2, Bool.false_eq_true, if_false, if_true]
    rw [hunfold]
    exact ⟨rfl, rfl, hlast, rfl⟩
  | succ j ih =>
    intro r i t d last pacer n ws hi hlast hfail hr hs
    obtain ⟨r', rfl⟩ : ∃ r', r = r' + 1 := ⟨r - 1, by omega⟩
    have h1 : stopSet (some s) t = false := by
      simp only [stopSet, decide_eq_false_iff_not]; omega
    have h2 : stopSet (some s) (t + 1) = false := by
      simp only [stopSet, decide_eq_false_iff_not]; omega
    have hfi : (att i).1 = false := hfail i le_rfl (by omega)
    have hres := ih r' (i + 1) (t + 2) (min (d * 2) RETRY_MAX_DELAY)
      (att i).2 (if (att i).2 = some 421 then on_retry_421 pacer else pacer)
      (n + 1) (ws ++ [⟨i, d, d * jit (i - 1)⟩]) (by omega) rfl
      (fun k hk1 hk2 => hfail k (by omega) (by omega)) (by omega) (by omega)
    have hunfold : retryLoop att jit (some s) (r' + 1) i t d last pacer n
        ws = retryLoop att jit (some s) r' (i + 1) (t + 2)
          (min (d * 2) RETRY_MAX_DELAY) (att i).2
          (if (att i).2 = some 421 then on_retry_421 pacer else pacer)
          (n + 1) (ws ++ [⟨i, d, d * jit (i - 1)⟩]) := by
      rw [retryLoop]
      simp only [h1, h2, hfi, Bool.false_eq_true, if_false]
    rw [hunfold]
    refine ⟨hres.1, ?_, ?_, ?_⟩
    · rw [hres.2.1]; omega
    · rw [hres.2.2.1]
      have hidx : i + 1 + j - 1 = i + (j + 1) - 1 := by omega
      rw [hidx]
    · rw [hres.2.2.2]; omega

/-- When the cancel event becomes set during the `j`-th backoff wait of a
`send_with_retries` call entered at tick `t` (the call's waits are polled
at ticks `t + 2*j` and `t + 2*j + 1`), and the attempts before that wait
all failed, the call makes exactly those `j + 1` attempts, returns failure
and reports the last observed error code. -/
theorem send_with_retries_stop_in_wait (att : Nat → Bool × Option Nat)
    (jit : Nat → ℚ) (s t : Nat) (pacer : PacerState) (serverIn : Bool)
    (j : Nat) (hfail : ∀ k, k ≤ j → (att k).1 = false)
    (hj : j < MAX_RETRIES - 1) (hs : s = t + (2 * j + 1)) :
    (send_with_retries att jit (some s) t pacer serverIn
      MAX_RETRIES).success = false ∧
    (send_with_retries att jit (some s) t pacer serverIn
      MAX_RETRIES).attemptsMade = j + 1 ∧
    (send_with_retries att jit (some s) t pacer serverIn
      MAX_RETRIES).lastCode = (att j).2 ∧
    (send_with_retries att jit (some s) t pacer serverIn
      MAX_RETRIES).tick = t + (2 * j + 2) := by
  have h0 : (att 0).1 = false := hfail 0 (Nat.zero_le j)
  have hres := retryLoop_stop_in_wait att jit s j (MAX_RETRIES - 1) 1 t
    RETRY_BASE_DELAY (att 0).2
    (if (att 0).2 = some 421 then on_retry_421 pacer else pacer) 1 []
    le_rfl rfl (fun k hk1 hk2 => hfail k (by omega)) hj hs
  have hunfold : send_with_retries att jit (some s) t pacer serverIn
      MAX_RETRIES = retryLoop att jit (some s) (MAX_RETRIES - 1) 1 t
        RETRY_BASE_DELAY (att 0).2
        (if (att 0).2 = some 421 then on_retry_421 pacer else pacer) 1 [] := by
    rw [send_with_retries]
    simp only [h0, Bool.false_eq_true, if_false]
  rw [hunfold]
  refine ⟨hres.1, ?_, ?_, hres.2.2.2⟩
  · rw [hres.2.1]; omega
  · rw [hres.2.2.1]
    have hidx : 1 + j - 1 = j := by omega
    rw [hidx]

/-- Lines 540-563 when `send_with_retries` failed: the `result` update,
the recorded outcome and the tick after the call. -/
theorem stepSend_failure (env : Env) (i : Nat) (st : RunState)
    (h : (send_with_retries (env.att i) (env.jit i) env.stopAt st.tick
      st.pacer true MAX_RETRIES).success = false) :
    (stepSend env i st).1.res.failed = st.res.failed + 1 ∧
    (stepSend env i st).1.res.success = st.res.success ∧
    (stepSend env i st).1.res.cancelled = st.res.cancelled ∧
    (stepSend env i st).1.tick = (send_with_retries (env.att i)
      (env.jit i) env.stopAt st.tick st.pacer true MAX_RETRIES).tick ∧
    (stepSend env i st).2 = TaskOutcome.sendFailed := by
  unfold stepSend
  simp [h]

/-- C10 (amended): whenever the dispatch loop reaches a task (the cancel
event unset at the iteration's two polls, a connection live or obtainable)
and the event becomes set while that task's `send_with_retries` sits inside
its `j`-th retry backoff wait — unset at the wait's pre-wait poll, set at
the post-wait poll, with the preceding attempts failed — then the send
stops retrying there and returns failure carrying the last observed error
code; the loop counts the in-progress task as failed and routes its files
to the per-origin failed location; if further tasks remain, the next
iteration observes the event and the run exits with `cancelled = true`,
the remaining tasks unreached, while an interrupted final task leaves the
cancelled flag as it was. -/
theorem cancel_during_backoff (env : Env) (s i j : Nat) (st : RunState)
    (task : SendTask) (rest : List SendTask)
    (henv : env.stopAt = some s)
    (hpoll1 : stopSet env.stopAt st.tick = false)
    (hpoll2 : stopSet env.stopAt (st.tick + 1) = false)
    (hconn : st.serverLive = true ∨ env.connOk st.connCalls = true)
    (hfail : ∀ k, k ≤ j → (env.att i k).1 = false)
    (hj : j < MAX_RETRIES - 1)
    (hs : s = st.tick + 2 + (2 * j + 1)) :
    (send_with_retries (env.att i) (env.jit i) env.stopAt (st.tick + 2)
      (before_send st.pacer).1 true MAX_RETRIES).success = false ∧
    (send_with_retries (env.att i) (env.jit i) env.stopAt (st.tick + 2)
      (before_send st.pacer).1 true MAX_RETRIES).attemptsMade = j + 1 ∧
    (send_with_retries (env.att i) (env.jit i) env.stopAt (st.tick + 2)
      (before_send st.pacer).1 true MAX_RETRIES).lastCode =
      (env.att i j).2 ∧
    (mainLoopAux env (task :: rest) i st).2 =
      TaskOutcome.sendFailed :: markUnreached rest ∧
    (mainLoopAux env (task :: rest) i st).1.res.failed =
      st.res.failed + 1 ∧
    (mainLoopAux env (task :: rest) i st).1.res.success = st.res.success ∧
    (rest ≠ [] →
      (mainLoopAux env (task :: rest) i st).1.res.cancelled = true) ∧
    (rest = [] →
      (mainLoopAux env (task :: rest) i st).1.res.cancelled =
        st.res.cancelled) ∧
    fileLocAfter TaskOutcome.sendFailed true true = Loc.failedLoc := by
  have htr := send_with_retries_stop_in_wait (env.att i) (env.jit i) s
    (st.tick + 2) (before_send st.pacer).1 true j hfail hj hs
  rw [← henv] at htr
  have hsetup : ∃ SD : RunState, SD.res = st.res ∧ SD.tick = st.tick + 2 ∧
      SD.pacer = (before_send st.pacer).1 ∧
      mainLoopAux env (task :: rest) i st =
        ((mainLoopAux env rest (i + 1) (stepSend env i SD).1).1,
         (stepSend env i SD).2 ::
           (mainLoopAux env rest (i + 1) (stepSend env i SD).1).2) := by
    by_cases hl : st.serverLive = true
    · refine ⟨bumpTick (bumpTick (paceState st)), rfl, rfl, rfl, ?_⟩
      rw [mainLoopAux]
      simp only [hpoll1, Bool.false_eq_true, if_false, bumpTick_tick,
        paceState_tick, hpoll2, bumpTick_serverLive, paceState_serverLive,
        hl, if_true]
    · have hl' : st.serverLive = false := by
        cases hx : st.serverLive
        · rfl
        · exact absurd hx hl
      have hcok : env.connOk st.connCalls = true := hconn.resolve_left hl
      refine ⟨connOkState (bumpTick (bumpTick (paceState st))), rfl, rfl,
        rfl, ?_⟩
      rw [mainLoopAux]
      simp only [hpoll1, Bool.false_eq_true, if_false, bumpTick_tick,
        paceState_tick, hpoll2, bumpTick_serverLive, paceState_serverLive,
        hl', bumpTick_connCalls, paceState_connCalls, hcok, if_true]
  obtain ⟨SD, hres, htick, hpacer, hmain⟩ := hsetup
  have htr' : (send_with_retries (env.att i) (env.jit i) env.stopAt SD.tick
      SD.pacer true MAX_RETRIES).success = false := by
    rw [htick, hpacer]; exact htr.1
  have hsf := stepSend_failure env i SD htr'
  have hticksend : (send_with_retries (env.att i) (env.jit i) env.stopAt
      SD.tick SD.pacer true MAX_RETRIES).tick =
      st.tick + 2 + (2 * j + 2) := by
    rw [htick, hpacer]; exact htr.2.2.2
  have hstop2 : stopSet env.stopAt (stepSend env i SD).1.tick = true := by
    rw [hsf.2.2.2.1, hticksend, henv]
    simp only [stopSet, decide_eq_true_eq]
    omega
  rcases rest with _ | ⟨r0, rest'⟩
  · have hnil : mainLoopAux env ([] : List SendTask) (i + 1)
        (stepSend env i SD).1 = ((stepSend env i SD).1, []) := rfl
    rw [hmain, hnil]
    refine ⟨htr.1, htr.2.1, htr.2.2.1, ?_, ?_, ?_, ?_, ?_, rfl⟩
    · simp [markUnreached, hsf.2.2.2.2]
    · simp [hsf.1, hres]
    · simp [hsf.2.1, hres]
    · intro h; exact absurd rfl h
    · intro _; simp [hsf.2.2.1, hres]
  · have hcons : mainLoopAux env (r0 :: rest') (i + 1)
        (stepSend env i SD).1 =
        (cancelState (stepSend env i SD).1,
         TaskOutcome.unreached :: markUnreached rest') := by
      rw [mainLoopAux, if_pos hstop2]
    rw [hmain, hcons]
    refine ⟨htr.1, htr.2.1, htr.2.2.1, ?_, ?_, ?_, ?_, ?_, rfl⟩
    · simp [markUnreached, hsf.2.2.2.2]
    · simp [hsf.1, hres]
    · simp [hsf.2.1, hres]
    · intro _; simp
    · intro h; simp at h

/-- C10 scenario (counterexample): a single task, connection fine, all
attempts failing with 451, cancel event set during the first backoff
wait. -/
def envC10 : Env :=
  { att := fun _ _ => (false, some 451), jit := fun _ _ => 1,
    connOk := fun _ => true, stopAt := some 3 }

def tC10 : SendTask := ⟨"A项目", "11111", ["x_11111_a.xlsx"]⟩

/-- C10 (counterexample): when the task interrupted by cancellation is the
last one, the loop ends without ever observing the event at a top-of-task
check, so the run returns `cancelled = false` (not `cancelled = true` as
the claim states) while the task is still recorded as failed. -/
theorem cancel_during_backoff_last_task :
    (mainLoopAux envC10 [tC10] 0 initState).1.res.cancelled = false ∧
    (mainLoopAux envC10 [tC10] 0 initState).1.res.failed = 1 ∧
    (mainLoopAux envC10 [tC10] 0 initState).2 = [TaskOutcome.sendFailed] :=
  ⟨by decide, by decide, by decide⟩

/-- Witness for C10 (amended): the event fires during the first backoff
wait of the first of two tasks; the run ends cancelled. -/
theorem cancel_during_backoff_witness :
    (mainLoopAux envC10 [tC10, tC10] 0 initState).1.res.cancelled = true :=
  (cancel_during_backoff envC10 3 0 0 initState tC10 [tC10] rfl rfl rfl
    (Or.inr rfl) (fun _ _ => rfl) (by decide) rfl).2.2.2.2.2.2.1
    (by simp)

/-! ## Order lemmas for Python string sorting -/

theorem lexLt_irrefl : ∀ a : List Char, lexLt a a = false
  | [] => rfl
  | c :: cs => by simp [lexLt, lexLt_irrefl cs]

theorem lexLt_asymm : ∀ a b : List Char, lexLt a b = true → lexLt b a = false := by
  intro a
  induction a with
  | nil =>
    intro b h
    cases b with
    | nil => simp [lexLt] at h
    | cons x xs => rfl
  | cons c cs ih =>
    intro b h
    cases b with
    | nil => simp [lexLt] at h
    | cons x xs =>
      simp only [lexLt] at h ⊢
      by_cases h1 : c.toNat < x.toNat
      · rw [if_neg (by omega : ¬ x.toNat < c.toNat),
          if_neg (by omega : ¬ x.toNat = c.toNat)]
      · rw [if_neg h1] at h
        by_cases h2 : c.toNat = x.toNat
        · rw [if_pos h2] at h
          rw [if_neg (by omega : ¬ x.toNat < c.toNat),
            if_pos (by omega : x.toNat = c.toNat)]
          exact ih xs h
        · rw [if_neg h2] at h
          simp at h

theorem lexLt_negtrans : ∀ a b c : List Char,
    lexLt b a = false → lexLt c b = false → lexLt c a = false := by
  intro a
  induction a with
  | nil =>
    intro b c _ _
    cases c with
    | nil => rfl
    | cons w ws => rfl
  | cons y ys ih =>
    intro b c h1 h2
    cases b with
    | nil => simp [lexLt] at h1
    | cons z zs =>
      cases c with
      | nil => simp [lexLt] at h2
      | cons w ws =>
        simp only [lexLt] at h1 h2 ⊢
        by_cases hzy : z.toNat < y.toNat
        · rw [if_pos hzy] at h1; simp at h1
        · rw [if_neg hzy] at h1
          by_cases hwz : w.toNat < z.toNat
          · rw [if_pos hwz] at h2; simp at h2
          · rw [if_neg hwz] at h2
            rw [if_neg (by omega : ¬ w.toNat < y.toNat)]
            by_cases hwy : w.toNat = y.toNat
            · rw [if_pos hwy]
              rw [if_pos (by omega : z.toNat = y.toNat)] at h1
              rw [if_pos (by omega : w.toNat = z.toNat)] at h2
              exact ih zs ws h1 h2
            · rw [if_neg hwy]

instance : IsTotal String strLe :=
  ⟨fun a b => by
    cases hb : lexLt b.data a.data with
    | false => exact Or.inl hb
    | true => exact Or.inr (lexLt_asymm _ _ hb)⟩

instance : IsTrans String strLe :=
  ⟨fun a b c h1 h2 => lexLt_negtrans a.data b.data c.data h1 h2⟩

theorem strLe_refl (a : String) : strLe a a := lexLt_irrefl a.data

theorem sortNames_sorted (l : List String) :
    List.Sorted strLe (sortNames l) :=
  List.sorted_insertionSort strLe l

theorem sortNames_nodup (l : List String) (h : l.Nodup) :
    (sortNames l).Nodup :=
  (List.Perm.nodup_iff (List.perm_insertionSort strLe l)).mpr h

theorem to_process_sorted (fs : FSState) (pn : Option (List String)) :
    List.Sorted strLe (to_process fs pn) := by
  unfold to_process
  cases pn with
  | none => exact sortNames_sorted _
  | some ns =>
    dsimp only
    by_cases h : ns.isEmpty
    · rw [if_pos h]; exact sortNames_sorted _
    · rw [if_neg h]; exact (sortNames_sorted _).filter _

theorem to_process_nodup (fs : FSState) (pn : Option (List String))
    (hnd : fs.rootList.Nodup) : (to_process fs pn).Nodup := by
  have h1 : (project_folders fs).Nodup := hnd.filter _
  unfold to_process
  cases pn with
  | none => exact sortNames_nodup _ h1
  | some ns =>
    dsimp only
    by_cases h : ns.isEmpty
    · rw [if_pos h]; exact sortNames_nodup _ h1
    · rw [if_neg h]; exact (sortNames_nodup _ h1).filter _

/-! ## Fold decompositions for the task builders -/

/-- Concatenation of per-folder blocks. -/
def flatOf {α β : Type} (g : α → List β) : List α → List β
  | [] => []
  | x :: xs => g x ++ flatOf g xs

/-- Per-element sum. -/
def sumOf {α : Type} (g : α → Nat) : List α → Nat
  | [] => 0
  | x :: xs => g x + sumOf g xs

theorem mem_flatOf {α β : Type} {g : α → List β} {t : β} :
    ∀ {l : List α}, t ∈ flatOf g l → ∃ x ∈ l, t ∈ g x := by
  intro l
  induction l with
  | nil => intro h; simp [flatOf] at h
  | cons x xs ih =>
    intro h
    rcases List.mem_append.mp h with h | h
    · exact ⟨x, List.mem_cons_self x xs, h⟩
    · obtain ⟨y, hy, hty⟩ := ih h
      exact ⟨y, List.mem_cons_of_mem x hy, hty⟩

theorem length_flatOf {α β : Type} (g : α → List β) :
    ∀ l : List α, (flatOf g l).length = sumOf (fun x => (g x).length) l := by
  intro l
  induction l with
  | nil => simp [flatOf, sumOf]
  | cons x xs ih => simp [flatOf, sumOf, ih]

theorem sumOf_congr {α : Type} (g h : α → Nat) :
    ∀ l : List α, (∀ x ∈ l, g x = h x) → sumOf g l = sumOf h l := by
  intro l
  induction l with
  | nil => intro _; rfl
  | cons x xs ih =>
    intro hm
    simp only [sumOf, hm x (List.mem_cons_self x xs)]
    rw [ih (fun y hy => hm y (List.mem_cons_of_mem x hy))]

theorem foldl_guarded_append {α β : Type} (p : α → Bool) (g : α → List β) :
    ∀ (l : List α) (acc : List β),
      l.foldl (fun a x => if p x then a ++ g x else a) acc =
        acc ++ flatOf (fun x => if p x then g x else []) l := by
  intro l
  induction l with
  | nil => intro acc; simp [flatOf]
  | cons x xs ih =>
    intro acc
    by_cases hp : p x = true
    · simp [flatOf, hp, ih, List.append_assoc]
    · simp [flatOf, hp, ih]

theorem foldl_filter_map {α β : Type} (p : α → Bool) (f : α → β) :
    ∀ (l : List α) (acc : List β),
      l.foldl (fun a x => if p x then a ++ [f x] else a) acc =
        acc ++ (l.filter p).map f := by
  intro l
  induction l with
  | nil => intro acc; simp
  | cons x xs ih =>
    intro acc
    by_cases hp : p x = true
    · simp [List.filter_cons, hp, ih, List.append_assoc]
    · simp [List.filter_cons, hp, ih]

theorem foldl_guarded_add {α : Type} (p : α → Bool) (k : α → Nat) :
    ∀ (l : List α) (acc : Nat),
      l.foldl (fun c x => if p x then c + k x else c) acc =
        acc + sumOf (fun x => if p x then k x else 0) l := by
  intro l
  induction l with
  | nil => intro acc; simp [sumOf]
  | cons x xs ih =>
    intro acc
    by_cases hp : p x = true
    · simp [sumOf, hp, ih, Nat.add_assoc]
    · simp [sumOf, hp, ih]

/-- The per-folder contribution of `build_tasks` (lines 452-467). -/
def folder_block (fs : FSState) (addr : List (String × String))
    (pf : String) : List SendTask :=
  if fs.hasPending pf && fs.hasSent pf then
    tasks_of_folder addr (fs.pendingList pf) pf
  else []

theorem build_tasks_eq_flatOf (fs : FSState) (addr : List (String × String))
    (pn : Option (List String)) :
    build_tasks fs addr pn =
      flatOf (folder_block fs addr) (to_process fs pn) := by
  unfold build_tasks folder_block
  simpa using foldl_guarded_append
    (fun pf => fs.hasPending pf && fs.hasSent pf)
    (fun pf => tasks_of_folder addr (fs.pendingList pf) pf)
    (to_process fs pn) []

theorem tasks_of_folder_eq (addr : List (String × String))
    (entries : List String) (pf : String) :
    tasks_of_folder addr entries pf =
      ((collect_supplier_files entries).filter
        (fun e => truthyOpt (lookup_to_email addr e.1))).map
        (fun e => (⟨pf, e.1, e.2⟩ : SendTask)) := by
  unfold tasks_of_folder
  simpa using foldl_filter_map
    (fun e => truthyOpt (lookup_to_email addr e.1))
    (fun e => (⟨pf, e.1, e.2⟩ : SendTask))
    (collect_supplier_files entries) []

theorem mem_tasks_of_folder {addr : List (String × String)}
    {entries : List String} {pf : String} {t : SendTask}
    (h : t ∈ tasks_of_folder addr entries pf) : t.project = pf := by
  rw [tasks_of_folder_eq] at h
  obtain ⟨e, _, rfl⟩ := List.mem_map.mp h
  rfl

theorem mem_folder_block {fs : FSState} {addr : List (String × String)}
    {pf : String} {t : SendTask} (h : t ∈ folder_block fs addr pf) :
    t.project = pf := by
  unfold folder_block at h
  by_cases hc : (fs.hasPending pf && fs.hasSent pf) = true
  · rw [if_pos hc] at h
    exact mem_tasks_of_folder h
  · rw [if_neg hc] at h
    simp at h

/-- C5 (counterexample): an origin folder with a 待外发 subfolder but no
已外发 subfolder: `count_pending_tasks` counts its task while `main` builds
none, so the preview does not return "exactly the number of tasks main
would build". -/
def fsC5 : FSState :=
  { rootList := ["C项目"], isRootDirEntry := fun _ => true,
    hasPending := fun _ => true, hasSent := fun _ => false,
    pendingList := fun _ => ["z_12345_c.xlsx"] }

def addrC5 : List (String × String) := [("12345", "e")]

/-- C5 (counterexample): the preview counts 1 task, the run builds 0. -/
theorem count_pending_tasks_overcounts :
    count_pending_tasks fsC5 addrC5 none = 1 ∧
    (build_tasks fsC5 addrC5 none).length = 0 ∧ (1 : Nat) ≠ 0 :=
  ⟨by decide, by decide, by decide⟩

/-- C5 (amended): `count_pending_tasks` uses the same folder selection,
grouping and address lookup as `main`, but does not require the 已外发
subfolder; on any state where every processed folder with a 待外发
subfolder also has its 已外发 subfolder, it returns exactly the number of
tasks `main` builds (and, as a pure function of the filesystem oracles, it
performs no writes). -/
theorem count_pending_tasks_eq (fs : FSState)
    (addr : List (String × String)) (pn : Option (List String))
    (h : ∀ pf ∈ to_process fs pn,
      fs.hasPending pf = true → fs.hasSent pf = true) :
    count_pending_tasks fs addr pn = (build_tasks fs addr pn).length := by
  rw [build_tasks_eq_flatOf, length_flatOf]
  unfold count_pending_tasks
  rw [foldl_guarded_add (fun pf => fs.hasPending pf)
    (fun pf => (collect_supplier_files (fs.pendingList pf)).countP
      (fun e => truthyOpt (lookup_to_email addr e.1))) (to_process fs pn) 0]
  rw [Nat.zero_add]
  refine sumOf_congr _ _ _ (fun pf hpf => ?_)
  by_cases hp : fs.hasPending pf = true
  · rw [if_pos hp]
    unfold folder_block
    rw [if_pos (by rw [hp, h pf hpf hp]; rfl)]
    rw [tasks_of_folder_eq, List.length_map,
      List.countP_eq_length_filter]
  · rw [if_neg hp]
    unfold folder_block
    rw [if_neg (by simp [hp])]
    rfl

/-- C5 scenario for the witness: both subfolders present. -/
def fsW5 : FSState :=
  { rootList := ["C项目"], isRootDirEntry := fun _ => true,
    hasPending := fun _ => true, hasSent := fun _ => true,
    pendingList := fun _ => ["z_12345_c.xlsx"] }

/-- Witness for C5 (amended) on a concrete state with both subfolders. -/
theorem count_pending_tasks_eq_witness :
    count_pending_tasks fsW5 addrC5 none =
      (build_tasks fsW5 addrC5 none).length :=
  count_pending_tasks_eq fsW5 addrC5 none (fun _ _ _ => rfl)

/-! ## Claim C4: ordering of the built task list -/

/-- Order of first appearance — the insertion order of a Python dict built
by `setdefault` over a stream of keys (the spec-side description of the
within-folder task order). -/
def firstAppearanceOrder (l : List String) : List String :=
  l.foldl (fun acc c => if acc.contains c then acc else acc ++ [c]) []

theorem assocAppend_keys (code f : String) :
    ∀ acc : List (String × List String),
      (assocAppend acc code f).map Prod.fst =
        if (acc.map Prod.fst).contains code then acc.map Prod.fst
        else acc.map Prod.fst ++ [code] := by
  intro acc
  induction acc with
  | nil => simp [assocAppend]
  | cons e rest ih =>
    obtain ⟨c, fs⟩ := e
    by_cases h : c = code
    · subst h
      simp [assocAppend]
    · simp only [assocAppend, if_neg h, List.map_cons, List.contains_cons]
      have hbe : (code == c) = false := by
        simp only [beq_eq_false_iff_ne, ne_eq]
        exact fun hc => h hc.symm
      rw [hbe, Bool.false_or, ih]
      split <;> simp

theorem collect_keys_aux :
    ∀ (entries : List String) (acc : List (String × List String)),
      ((entries.foldl (fun a filename =>
        match supplier_code_of filename with
        | none => a
        | some code => assocAppend a code filename) acc).map Prod.fst) =
      (entries.filterMap supplier_code_of).foldl
        (fun ks c => if ks.contains c then ks else ks ++ [c])
        (acc.map Prod.fst) := by
  intro entries
  induction entries with
  | nil => intro acc; simp
  | cons e es ih =>
    intro acc
    cases hc : supplier_code_of e with
    | none => simp [List.foldl_cons, hc, ih, List.filterMap_cons]
    | some code =>
      simp only [List.foldl_cons, hc, List.filterMap_cons, ih,
        assocAppend_keys]

theorem collect_supplier_files_keys (entries : List String) :
    (collect_supplier_files entries).map Prod.fst =
      firstAppearanceOrder (entries.filterMap supplier_code_of) := by
  unfold collect_supplier_files firstAppearanceOrder
  simpa using collect_keys_aux entries []

theorem tasks_of_folder_codes (addr : List (String × String))
    (entries : List String) (pf : String) :
    (tasks_of_folder addr entries pf).map SendTask.code =
      (firstAppearanceOrder (entries.filterMap supplier_code_of)).filter
        (fun c => truthyOpt (lookup_to_email addr c)) := by
  rw [tasks_of_folder_eq, ← collect_supplier_files_keys, List.filter_map,
    List.map_map]
  rfl

theorem filter_flatOf_project (g : String → List SendTask)
    (hg : ∀ x t, t ∈ g x → t.project = x) (pf : String) :
    ∀ l : List String, l.Nodup →
      (flatOf g l).filter (fun t => t.project == pf) =
        if pf ∈ l then g pf else [] := by
  intro l
  induction l with
  | nil => intro _; simp [flatOf]
  | cons x xs ih =>
    intro hnd
    simp only [flatOf, List.filter_append]
    by_cases hx : x = pf
    · subst hx
      have h1 : (g x).filter (fun t => t.project == x) = g x :=
        List.filter_eq_self.mpr (fun t ht => by simp [hg x t ht])
      have hpf : x ∉ xs := (List.nodup_cons.mp hnd).1
      have h2 : (flatOf g xs).filter (fun t => t.project == x) = [] := by
        rw [List.filter_eq_nil_iff]
        intro t ht
        obtain ⟨y, hy, hty⟩ := mem_flatOf ht
        have hproj := hg y t hty
        simp only [hproj, beq_iff_eq]
        intro hyx
        exact hpf (hyx ▸ hy)
      rw [h1, h2, if_pos (List.mem_cons_self x xs)]
      simp
    · have h1 : (g x).filter (fun t => t.project == pf) = [] := by
        rw [List.filter_eq_nil_iff]
        intro t ht
        simp only [hg x t ht, beq_iff_eq]
        exact fun hc => hx hc
      rw [h1, ih (List.nodup_cons.mp hnd).2, List.nil_append]
      by_cases hmem : pf ∈ xs
      · rw [if_pos hmem, if_pos (List.mem_cons_of_mem x hmem)]
      · rw [if_neg hmem, if_neg ?_]
        intro hc
        rcases List.mem_cons.mp hc with hc | hc
        · exact hx hc.symm
        · exact hmem hc

theorem sorted_flatOf_project (g : String → List SendTask)
    (hg : ∀ x t, t ∈ g x → t.project = x) :
    ∀ l : List String, List.Sorted strLe l →
      List.Sorted strLe ((flatOf g l).map SendTask.project) := by
  intro l
  induction l with
  | nil => intro _; simp [flatOf]
  | cons x xs ih =>
    intro hs
    have hs' := List.sorted_cons.mp hs
    simp only [flatOf, List.map_append]
    refine List.pairwise_append.mpr ⟨?_, ih hs'.2, ?_⟩
    · rw [List.pairwise_map]
      refine List.pairwise_of_forall_mem_list (fun a ha b hb => ?_)
      rw [hg x a ha, hg x b hb]
      exact strLe_refl x
    · intro a ha b hb
      obtain ⟨ta, hta, rfl⟩ := List.mem_map.mp ha
      obtain ⟨tb, htb, rfl⟩ := List.mem_map.mp hb
      obtain ⟨y, hy, hty⟩ := mem_flatOf htb
      rw [hg x ta hta, hg y tb hty]
      exact hs'.1 y hy

/-- C4 scenario (counterexample): directory listing order puts code 99999
before 11111. -/
def fsC4 : FSState :=
  { rootList := ["D项目"], isRootDirEntry := fun _ => true,
    hasPending := fun _ => true, hasSent := fun _ => true,
    pendingList := fun _ => ["b_99999_x.xlsx", "a_11111_y.xlsx"] }

def addrC4 : List (String × String) := [("99999", "e"), ("11111", "e")]

/-- C4 (counterexample): within one origin folder the built tasks follow
the directory-listing first-appearance order of the codes, not the
lexicographic order of the codes: here the task for 99999 precedes the one
for 11111 although "11111" < "99999". -/
theorem build_tasks_not_sorted_by_code :
    (build_tasks fsC4 addrC4 none).map SendTask.code = ["99999", "11111"] ∧
    lexLt "11111".data "99999".data = true :=
  ⟨by decide, by decide⟩

/-- C4 (amended): `build_tasks` is a function of the filesystem oracles
alone (determinism, no side effects); its tasks are ordered
lexicographically by origin folder name; and within one origin folder the
tasks carry the folder's destination codes in the order the codes first
appear in the pending directory listing (Python dict insertion order),
filtered by address resolvability — not sorted lexicographically by
code. -/
theorem build_tasks_ordering (fs : FSState) (addr : List (String × String))
    (pn : Option (List String)) (hnd : fs.rootList.Nodup) :
    List.Sorted strLe ((build_tasks fs addr pn).map SendTask.project) ∧
    (∀ pf ∈ to_process fs pn,
      (fs.hasPending pf && fs.hasSent pf) = true →
      ((build_tasks fs addr pn).filter
          (fun t => t.project == pf)).map SendTask.code =
        (firstAppearanceOrder
          ((fs.pendingList pf).filterMap supplier_code_of)).filter
          (fun c => truthyOpt (lookup_to_email addr c))) ∧
    (∀ pf, pf ∉ to_process fs pn →
      (build_tasks fs addr pn).filter (fun t => t.project == pf) = []) := by
  have hg : ∀ x t, t ∈ folder_block fs addr x → t.project = x :=
    fun x t ht => mem_folder_block ht
  refine ⟨?_, ?_, ?_⟩
  · rw [build_tasks_eq_flatOf]
    exact sorted_flatOf_project _ hg _ (to_process_sorted fs pn)
  · intro pf hpf hdirs
    rw [build_tasks_eq_flatOf,
      filter_flatOf_project _ hg pf _ (to_process_nodup fs pn hnd),
      if_pos hpf]
    unfold folder_block
    rw [if_pos hdirs]
    exact tasks_of_folder_codes addr (fs.pendingList pf) pf
  · intro pf hpf
    rw [build_tasks_eq_flatOf,
      filter_flatOf_project _ hg pf _ (to_process_nodup fs pn hnd),
      if_neg hpf]

/-- C4 scenario for the witness: two origin folders listed out of order. -/
def fsW4 : FSState :=
  { rootList := ["B项目", "A项目"], isRootDirEntry := fun _ => true,
    hasPending := fun _ => true, hasSent := fun _ => true,
    pendingList := fun _ => ["a_11111_x.xlsx"] }

def addrW4 : List (String × String) := [("11111", "e")]

/-- Witness for C4 (amended) at a concrete filesystem state. -/
theorem build_tasks_ordering_witness :
    List.Sorted strLe ((build_tasks fsW4 addrW4 none).map SendTask.project) :=
  (build_tasks_ordering fsW4 addrW4 none (by decide)).1
